import Mathlib

/-!
Shallow embedding of the three Solana vault program variants
(native, pinocchio, anchor) of the Solana-CPI-Explained repository,
together with theorems checking the natural-language specification
against the code.

Addresses (public keys) are byte lists; the cryptographic PDA hash
(sha256 plus the off-curve test inside create_program_address) is
external library code, so it is abstracted as a parameter of type
Combine; everything the repository itself does is embedded directly.
-/

/-- A public key, modelled as its byte list. -/
abbrev Pubkey := List Nat

/-- State of one ledger account: lamport balance, owning program, data bytes. -/
structure Account where
  lamports : Nat
  owner : Pubkey
  data : List Nat
deriving DecidableEq, Repr

/-- Replace the lamport balance, keeping owner and data. -/
def Account.withLamports (a : Account) (n : Nat) : Account :=
  ⟨n, a.owner, a.data⟩

/-- Replace the data bytes, keeping lamports and owner. -/
def Account.withData (a : Account) (d : List Nat) : Account :=
  ⟨a.lamports, a.owner, d⟩

/-- The whole ledger: every address maps to an account
(absent accounts are the default empty account). -/
abbrev Ledger := Pubkey → Account

/-- Point update of the ledger. -/
def setAccount (st : Ledger) (k : Pubkey) (a : Account) : Ledger :=
  fun q => if q = k then a else st q

/-- Overwrite the data bytes stored at an address. -/
def writeDataAt (st : Ledger) (k : Pubkey) (d : List Nat) : Ledger :=
  setAccount st k ((st k).withData d)

/-- The error codes the embedded handlers can surface
(ProgramError values in the Rust source; the anchor
insufficient-funds custom error is folded in). -/
inductive ProgErr where
  | notEnoughAccountKeys
  | missingRequiredSignature
  | invalidAccountData
  | invalidInstructionData
  | invalidSeeds
  | insufficientFunds
deriving DecidableEq, Repr

/-- The per-request view of one referenced account: its address and
whether it signed the transaction. -/
structure AccountInfo where
  key : Pubkey
  isSigner : Bool
deriving DecidableEq, Repr

/-- The system program's constant identity (the all-zero key). -/
def systemProgramId : Pubkey := List.replicate 32 0

/-- The seed prefix literal b"vault" used for the custody address. -/
def vaultSeed : List Nat := [118, 97, 117, 108, 116]

/-- The cryptographic seed-combination primitive behind
Pubkey::create_program_address: external library code, abstracted
as a parameter; none means the combined point fell on the curve. -/
abbrev Combine := List (List Nat) → Pubkey → Option Pubkey

/-- Pubkey::create_program_address: one direct combination of the
seeds (bump included in the seed list) with the program id. -/
def create_program_address (c : Combine) (seeds : List (List Nat)) (pid : Pubkey) :
    Option Pubkey :=
  c seeds pid

/-- Bump search of Pubkey::find_program_address, trying bump b, b-1, ..., 0. -/
def findProgramAddressFrom (c : Combine) (seeds : List (List Nat)) (pid : Pubkey) :
    Nat → Option (Pubkey × Nat)
  | 0 =>
    match c (seeds ++ [[0]]) pid with
    | some a => some (a, 0)
    | none => none
  | b + 1 =>
    match c (seeds ++ [[b + 1]]) pid with
    | some a => some (a, b + 1)
    | none => findProgramAddressFrom c seeds pid b

/-- Pubkey::find_program_address: search the bump downward from 255 for the
first off-curve combination. -/
def find_program_address (c : Combine) (seeds : List (List Nat)) (pid : Pubkey) :
    Option (Pubkey × Nat) :=
  findProgramAddressFrom c seeds pid 255

/-- Modelled from the spec: the Account Ledger Adapter's transfer,
performed by the external system program; it enforces that a
transfer cannot overdraw a balance, and moves exactly the requested
amount, touching only lamport balances. -/
def sysTransfer (src dst : Pubkey) (amount : Nat) (st : Ledger) :
    Except ProgErr Ledger :=
  if (st src).lamports < amount then .error .insufficientFunds
  else
    let st1 := setAccount st src ((st src).withLamports ((st src).lamports - amount))
    .ok (setAccount st1 dst ((st1 dst).withLamports ((st1 dst).lamports + amount)))

/-- Modelled from the spec: the Account Ledger Adapter's create, performed by
the external system program: funds the new account from the payer, sizes its
data, and assigns it to the given owner. -/
def createAccount (payer addr : Pubkey) (lam size : Nat) (owner : Pubkey)
    (st : Ledger) : Except ProgErr Ledger :=
  if (st payer).lamports < lam then .error .insufficientFunds
  else
    let st1 := setAccount st payer ((st payer).withLamports ((st payer).lamports - lam))
    .ok (setAccount st1 addr ⟨lam, owner, List.replicate size 0⟩)

/-- The per-user metadata record (struct UserAccount of the Rust source). -/
structure UserAccount where
  user : Pubkey
  user_bump : Nat
  vault_bump : Nat
  is_initialized : Bool
deriving DecidableEq, Repr

/-- UserAccount::SIZE = pubkey + user_bump + vault_bump + is_initialized. -/
def UserAccount.SIZE : Nat := 32 + 1 + 1 + 1

/-- Well-formedness of a record as the Rust types force it: a 32-byte
key of bytes, and bumps fitting in a u8. -/
def UserAccount.Valid (r : UserAccount) : Prop :=
  r.user.length = 32 ∧ (∀ b ∈ r.user, b < 256) ∧ r.user_bump < 256 ∧ r.vault_bump < 256

instance (r : UserAccount) : Decidable r.Valid := by
  unfold UserAccount.Valid; infer_instance

/-- Borsh serialization of a UserAccount: the 32 key bytes, the two bump
bytes, then the bool byte. -/
def encode (r : UserAccount) : List Nat :=
  r.user ++ [r.user_bump, r.vault_bump, if r.is_initialized then 1 else 0]

/-- Borsh deserialization of a UserAccount (try_from_slice): requires the
exact 35-byte length and a 0/1 bool byte, else fails. -/
def decode (bytes : List Nat) : Except ProgErr UserAccount :=
  if bytes.length = UserAccount.SIZE then
    let flag := bytes.getD 34 2
    if flag = 1 then
      .ok ⟨bytes.take 32, bytes.getD 32 0, bytes.getD 33 0, true⟩
    else if flag = 0 then
      .ok ⟨bytes.take 32, bytes.getD 32 0, bytes.getD 33 0, false⟩
    else .error .invalidAccountData
  else .error .invalidAccountData

/-- The decoded instruction (enum ProgramInstruction). -/
inductive ProgramInstruction where
  | Deposit (amount : Nat)
  | Withdraw (amount : Nat)
deriving DecidableEq, Repr

/-- Little-endian value of a byte list. -/
def u64FromLEBytes (bs : List Nat) : Nat :=
  bs.foldr (fun b acc => b + 256 * acc) 0

/-- ProgramInstruction::unpack via borsh try_from_slice: one tag byte
(0 = Deposit, 1 = Withdraw) followed by exactly eight little-endian
amount bytes; anything else is InvalidInstructionData. -/
def unpack (input : List Nat) : Except ProgErr ProgramInstruction :=
  match input with
  | tag :: rest =>
    if rest.length = 8 then
      if tag = 0 then .ok (.Deposit (u64FromLEBytes rest))
      else if tag = 1 then .ok (.Withdraw (u64FromLEBytes rest))
      else .error .invalidInstructionData
    else .error .invalidInstructionData
  | [] => .error .invalidInstructionData

/-- The withdraw-side verification of a derived address from a stored bump,
as both withdraw handlers inline it: one create_program_address call
(failure surfaces as eFail) followed by an equality test against the
claimed address. -/
def verifyDerived (c : Combine) (eFail : ProgErr) (seeds : List (List Nat))
    (bump : Nat) (pid claimed : Pubkey) : Except ProgErr Unit :=
  match create_program_address c (seeds ++ [[bump]]) pid with
  | none => .error eFail
  | some a => if claimed ≠ a then .error .invalidAccountData else .ok ()

/-- process_deposit of the native program: exactly four accounts;
signer, system-program and both PDA checks (user-data PDA first, then
vault PDA, both by bump search); lazily creates and initializes the
metadata record when the account is not yet program-owned; then
transfers the amount from the user to the vault. The find panic on
bump exhaustion is modelled as an error. -/
def native_process_deposit (c : Combine) (rentMin : Nat → Nat) (pid : Pubkey)
    (accounts : List AccountInfo) (amount : Nat) (st : Ledger) :
    Except ProgErr Ledger :=
  match accounts with
  | [u, ud, v, sp] =>
    if !u.isSigner then .error .missingRequiredSignature
    else if sp.key ≠ systemProgramId then .error .invalidAccountData
    else
      match find_program_address c [u.key] pid with
      | none => .error .invalidSeeds
      | some (expUd, userBump) =>
        if ud.key ≠ expUd then .error .invalidAccountData
        else
          match find_program_address c [vaultSeed, u.key] pid with
          | none => .error .invalidSeeds
          | some (expV, vaultBump) =>
            if v.key ≠ expV then .error .invalidAccountData
            else
              (if (st ud.key).owner ≠ pid then
                (createAccount u.key ud.key (rentMin UserAccount.SIZE)
                    UserAccount.SIZE pid st).map
                  (fun s => writeDataAt s ud.key
                    (encode ⟨u.key, userBump, vaultBump, true⟩))
              else .ok st).bind
                (fun s1 => sysTransfer u.key v.key amount s1)
  | _ => .error .notEnoughAccountKeys

/-- process_withdraw of the native program: exactly four accounts;
signer and system-program checks; decode the supplied metadata record;
ownership check; re-verify the metadata address from the stored
user_bump and the custody address from the stored vault_bump (both via
create_program_address, whose failure surfaces as InvalidSeeds); then
transfer the amount from the vault to the user under the vault seeds. -/
def native_process_withdraw (c : Combine) (pid : Pubkey)
    (accounts : List AccountInfo) (amount : Nat) (st : Ledger) :
    Except ProgErr Ledger :=
  match accounts with
  | [u, ud, v, sp] =>
    if !u.isSigner then .error .missingRequiredSignature
    else if sp.key ≠ systemProgramId then .error .invalidAccountData
    else
      match decode (st ud.key).data with
      | .error _ => .error .invalidAccountData
      | .ok rec =>
        if rec.user ≠ u.key then .error .invalidAccountData
        else
          match verifyDerived c .invalidSeeds [u.key] rec.user_bump pid ud.key with
          | .error e => .error e
          | .ok _ =>
            match verifyDerived c .invalidSeeds [vaultSeed, u.key]
                rec.vault_bump pid v.key with
            | .error e => .error e
            | .ok _ => sysTransfer v.key u.key amount st
  | _ => .error .notEnoughAccountKeys

/-- process_deposit of the pinocchio program: same checks as the native
variant except that the vault PDA is verified first and the user-data
PDA is derived and verified only inside the creation branch. -/
def pinocchio_process_deposit (c : Combine) (rentMin : Nat → Nat) (pid : Pubkey)
    (accounts : List AccountInfo) (amount : Nat) (st : Ledger) :
    Except ProgErr Ledger :=
  match accounts with
  | [u, ud, v, sp] =>
    if !u.isSigner then .error .missingRequiredSignature
    else if sp.key ≠ systemProgramId then .error .invalidAccountData
    else
      match find_program_address c [vaultSeed, u.key] pid with
      | none => .error .invalidSeeds
      | some (expV, vaultBump) =>
        if v.key ≠ expV then .error .invalidAccountData
        else
          let init : Except ProgErr Ledger :=
            if (st ud.key).owner ≠ pid then
              match find_program_address c [u.key] pid with
              | none => .error .invalidSeeds
              | some (expUd, userBump) =>
                if ud.key ≠ expUd then .error .invalidAccountData
                else
                  (createAccount u.key ud.key (rentMin UserAccount.SIZE)
                      UserAccount.SIZE pid st).map
                    (fun s => writeDataAt s ud.key
                      (encode ⟨u.key, userBump, vaultBump, true⟩))
            else .ok st
          init.bind (fun s1 => sysTransfer u.key v.key amount s1)
  | _ => .error .notEnoughAccountKeys

/-- process_withdraw of the pinocchio program: signer and system-program
checks, decode, ownership check, then verification of the custody
address only (from the stored vault_bump, combine failure mapped to
InvalidAccountData); the metadata address is not re-verified. -/
def pinocchio_process_withdraw (c : Combine) (pid : Pubkey)
    (accounts : List AccountInfo) (amount : Nat) (st : Ledger) :
    Except ProgErr Ledger :=
  match accounts with
  | [u, ud, v, sp] =>
    if !u.isSigner then .error .missingRequiredSignature
    else if sp.key ≠ systemProgramId then .error .invalidAccountData
    else
      match decode (st ud.key).data with
      | .error _ => .error .invalidAccountData
      | .ok rec =>
        if rec.user ≠ u.key then .error .invalidAccountData
        else
          match verifyDerived c .invalidAccountData [vaultSeed, u.key]
              rec.vault_bump pid v.key with
          | .error e => .error e
          | .ok _ => sysTransfer v.key u.key amount st
  | _ => .error .notEnoughAccountKeys

/-- The shared dispatcher (process_instruction): decode the instruction
bytes, then route to the deposit or withdraw handler (shown here on the
native handlers). -/
def native_process_instruction (c : Combine) (rentMin : Nat → Nat) (pid : Pubkey)
    (accounts : List AccountInfo) (input : List Nat) (st : Ledger) :
    Except ProgErr Ledger :=
  match unpack input with
  | .error e => .error e
  | .ok (.Deposit amount) => native_process_deposit c rentMin pid accounts amount st
  | .ok (.Withdraw amount) => native_process_withdraw c pid accounts amount st

/-- INIT_SPACE of the anchor UserAccount (32 + 1 + 1 + 1). -/
def anchorInitSpace : Nat := 32 + 1 + 1 + 1

/-- The space constraint of the anchor Deposit accounts struct:
8 + UserAccount::INIT_SPACE (the 8-byte anchor discriminator). -/
def anchorDepositSpace : Nat := 8 + anchorInitSpace

/-- The anchor deposit handler body acting on the metadata record:
fields are written only when the record is not yet initialized. -/
def anchor_deposit_record (userKey : Pubkey) (userBump vaultBump : Nat)
    (ua : UserAccount) : UserAccount :=
  if !ua.is_initialized then ⟨userKey, userBump, vaultBump, true⟩ else ua

/-- The anchor withdraw handler body: explicit insufficient-funds guard
on the vault balance, then the seed-signed transfer from the vault to
the user. -/
def anchor_withdraw (userKey vaultKey : Pubkey) (amount : Nat) (st : Ledger) :
    Except ProgErr Ledger :=
  if (st vaultKey).lamports < amount then .error .insufficientFunds
  else sysTransfer vaultKey userKey amount st

/-- Whether an Except produced a value. -/
def exceptIsOk (x : Except ProgErr Ledger) : Bool :=
  match x with
  | .ok _ => true
  | .error _ => false

/-- The produced ledger of an Except, with a fallback for the error case. -/
def okOr (x : Except ProgErr Ledger) (d : Ledger) : Ledger :=
  match x with
  | .ok s => s
  | .error _ => d

/-- Polynomial code of a byte list, used by the concrete combine of the
worked examples. -/
def byteListCode (s : List Nat) : Nat :=
  s.foldl (fun a b => a * 257 + b + 1) 1

/-- Concrete code of a seed list together with a program id. -/
def seedsCode (seeds : List (List Nat)) (pid : Pubkey) : Nat :=
  (seeds.foldl (fun a s => a * 1000003 + byteListCode s) 1) * 1000003
    + byteListCode pid

/-- A concrete combine for the worked examples: always off-curve, with
the derived address the one-element list of the seeds code. -/
def cAll : Combine := fun seeds pid => some [seedsCode seeds pid]

/-- Example user key. -/
def wU : Pubkey := List.replicate 32 1

/-- Example program id. -/
def wPid : Pubkey := [7]

/-- Example rent schedule charging nothing. -/
def wRent : Nat → Nat := fun _ => 0

/-- Example metadata address: the cAll derivation for seeds [wU] at bump 255. -/
def wUdKey : Pubkey := [seedsCode [wU, [255]] wPid]

/-- Example custody address: the cAll derivation for the vault seeds at bump 255. -/
def wVKey : Pubkey := [seedsCode [vaultSeed, wU, [255]] wPid]

/-- Example account list for deposits and withdrawals by wU. -/
def wAccts : List AccountInfo :=
  [⟨wU, true⟩, ⟨wUdKey, false⟩, ⟨wVKey, false⟩, ⟨systemProgramId, false⟩]

/-- Example starting ledger: the user holds 100 lamports, all else empty. -/
def wSt0 : Ledger := fun k => if k = wU then ⟨100, [], []⟩ else ⟨0, [], []⟩

/-- The encoded record of a 32-byte identity is exactly SIZE bytes. -/
theorem encode_length (r : UserAccount) (h : r.user.length = 32) :
    (encode r).length = UserAccount.SIZE := by
  simp [encode, UserAccount.SIZE, h]

/-- Decoding inverts encoding for any record with a 32-byte identity. -/
theorem decode_encode (r : UserAccount) (hlen : r.user.length = 32) :
    decode (encode r) = .ok r := by
  obtain ⟨usr, ub, vb, ini⟩ := r
  replace hlen : usr.length = 32 := hlen
  have h34 : ∀ fl : Nat, (usr ++ [ub, vb, fl]).getD 34 2 = fl := by
    intro fl
    rw [List.getD_append_right _ _ _ _ (by omega), hlen]
    simp
  have h32 : ∀ fl : Nat, (usr ++ [ub, vb, fl]).getD 32 0 = ub := by
    intro fl
    rw [List.getD_append_right _ _ _ _ (by omega), hlen]
    simp
  have h33 : ∀ fl : Nat, (usr ++ [ub, vb, fl]).getD 33 0 = vb := by
    intro fl
    rw [List.getD_append_right _ _ _ _ (by omega), hlen]
    simp
  have htake : ∀ fl : Nat, (usr ++ [ub, vb, fl]).take 32 = usr := by
    intro fl
    exact List.take_left' hlen
  cases ini
  · have hsz : (encode ⟨usr, ub, vb, false⟩).length = UserAccount.SIZE :=
      encode_length _ hlen
    have he : encode ⟨usr, ub, vb, false⟩ = usr ++ [ub, vb, 0] := rfl
    unfold decode
    rw [if_pos hsz, he, h34, if_neg (by omega), if_pos rfl, h32, h33, htake]
  · have hsz : (encode ⟨usr, ub, vb, true⟩).length = UserAccount.SIZE :=
      encode_length _ hlen
    have he : encode ⟨usr, ub, vb, true⟩ = usr ++ [ub, vb, 1] := rfl
    unfold decode
    rw [if_pos hsz, he, h34, if_pos rfl, h32, h33, htake]

/-- Decoding any buffer of the wrong length fails. -/
theorem decode_wrong_length (bs : List Nat) (h : bs.length ≠ UserAccount.SIZE) :
    decode bs = .error .invalidAccountData := by
  unfold decode
  rw [if_neg h]

/-- A successful system transfer touches only lamport balances: every
account keeps its data and owner. -/
theorem sysTransfer_preserves (src dst : Pubkey) (n : Nat) (st st' : Ledger)
    (h : sysTransfer src dst n st = .ok st') (k : Pubkey) :
    (st' k).data = (st k).data ∧ (st' k).owner = (st k).owner := by
  unfold sysTransfer at h
  split at h
  · exact absurd h (by simp)
  · simp only [Except.ok.injEq] at h
    subst h
    simp only [setAccount, Account.withLamports]
    split_ifs <;> simp_all

/-- After a successful createAccount, the target address holds the freshly
created account: the requested lamports, the requested owner, and a
zero-filled data buffer of the requested size. -/
theorem createAccount_target (payer addr : Pubkey) (lam size : Nat)
    (owner : Pubkey) (st st' : Ledger)
    (h : createAccount payer addr lam size owner st = .ok st') :
    st' addr = ⟨lam, owner, List.replicate size 0⟩ := by
  unfold createAccount at h
  split at h
  · exact absurd h (by simp)
  · simp only [Except.ok.injEq] at h
    subst h
    simp [setAccount]

/-- Reading back the address just written by writeDataAt. -/
theorem writeDataAt_self (st : Ledger) (k : Pubkey) (d : List Nat) :
    (writeDataAt st k d) k = ⟨(st k).lamports, (st k).owner, d⟩ := by
  simp [writeDataAt, setAccount, Account.withData]

/-- A successful native deposit that found the metadata account not yet
program-owned creates it under the program and writes the freshly
initialized record with the searched bumps. -/
theorem native_deposit_creates (c : Combine) (rentMin : Nat → Nat) (pid : Pubkey)
    (u ud v sp : AccountInfo) (ubump vbump amount : Nat) (st st' : Ledger)
    (hsig : u.isSigner = true) (hsp : sp.key = systemProgramId)
    (hfu : find_program_address c [u.key] pid = some (ud.key, ubump))
    (hfv : find_program_address c [vaultSeed, u.key] pid = some (v.key, vbump))
    (h0 : (st ud.key).owner ≠ pid)
    (hrun : native_process_deposit c rentMin pid [u, ud, v, sp] amount st = .ok st') :
    (st' ud.key).owner = pid ∧
    (st' ud.key).data = encode ⟨u.key, ubump, vbump, true⟩ := by
  simp only [native_process_deposit] at hrun
  rw [hsig, hsp] at hrun
  simp only [Bool.not_true, if_false, Bool.false_eq_true, ne_eq, not_true_eq_false,
    if_true, ite_self] at hrun
  rw [hfu, hfv] at hrun
  simp only [ne_eq, not_true_eq_false, if_false] at hrun
  rw [if_pos h0] at hrun
  cases hc : createAccount u.key ud.key (rentMin UserAccount.SIZE)
      UserAccount.SIZE pid st with
  | error e =>
    rw [hc] at hrun
    simp [Except.map, Except.bind] at hrun
  | ok stc =>
    rw [hc] at hrun
    simp only [Except.map, Except.bind] at hrun
    obtain ⟨hd, ho⟩ := sysTransfer_preserves _ _ _ _ _ hrun ud.key
    rw [writeDataAt_self] at hd ho
    refine ⟨?_, ?_⟩
    · rw [ho, createAccount_target _ _ _ _ _ _ _ hc]
    · rw [hd]

/-- A successful native deposit that found the metadata account already
program-owned takes the skip branch: no account keeps anything but its
lamport balance changed, so the stored record is untouched. -/
theorem native_deposit_skips (c : Combine) (rentMin : Nat → Nat) (pid : Pubkey)
    (u ud v sp : AccountInfo) (ubump vbump amount : Nat) (st st' : Ledger)
    (hsig : u.isSigner = true) (hsp : sp.key = systemProgramId)
    (hfu : find_program_address c [u.key] pid = some (ud.key, ubump))
    (hfv : find_program_address c [vaultSeed, u.key] pid = some (v.key, vbump))
    (h0 : (st ud.key).owner = pid)
    (hrun : native_process_deposit c rentMin pid [u, ud, v, sp] amount st = .ok st') :
    ∀ k, (st' k).data = (st k).data ∧ (st' k).owner = (st k).owner := by
  simp only [native_process_deposit] at hrun
  rw [hsig, hsp] at hrun
  simp only [Bool.not_true, if_false, Bool.false_eq_true, ne_eq, not_true_eq_false,
    if_true, ite_self] at hrun
  rw [hfu, hfv] at hrun
  simp only [ne_eq, not_true_eq_false, if_false] at hrun
  rw [if_neg (by simp [h0])] at hrun
  simp only [Except.bind] at hrun
  intro k
  exact sysTransfer_preserves _ _ _ _ _ hrun k

/-- Claim C3: running Deposit twice creates the metadata record at most once:
the first run (metadata account not yet program-owned) creates and
initializes it; the second run takes the already-initialized branch and
leaves the record's owner, user_bump and vault_bump exactly as first
written, so they still decode to the initially written values; the anchor
deposit handler likewise leaves an already-initialized record unchanged. -/
theorem deposit_idempotent_init (c : Combine) (rentMin : Nat → Nat) (pid : Pubkey)
    (u ud v sp : AccountInfo) (ubump vbump amt1 amt2 : Nat) (st0 st1 st2 : Ledger)
    (hu : u.key.length = 32)
    (hsig : u.isSigner = true) (hsp : sp.key = systemProgramId)
    (hfu : find_program_address c [u.key] pid = some (ud.key, ubump))
    (hfv : find_program_address c [vaultSeed, u.key] pid = some (v.key, vbump))
    (h0 : (st0 ud.key).owner ≠ pid)
    (hrun1 : native_process_deposit c rentMin pid [u, ud, v, sp] amt1 st0 = .ok st1)
    (hrun2 : native_process_deposit c rentMin pid [u, ud, v, sp] amt2 st1 = .ok st2) :
    (st1 ud.key).owner = pid ∧
    (st1 ud.key).data = encode ⟨u.key, ubump, vbump, true⟩ ∧
    (st2 ud.key).data = (st1 ud.key).data ∧
    (st2 ud.key).owner = pid ∧
    decode (st2 ud.key).data = .ok ⟨u.key, ubump, vbump, true⟩ ∧
    ∀ ua : UserAccount, ua.is_initialized = true →
      anchor_deposit_record u.key ubump vbump ua = ua := by
  obtain ⟨ho1, hd1⟩ := native_deposit_creates c rentMin pid u ud v sp ubump vbump
    amt1 st0 st1 hsig hsp hfu hfv h0 hrun1
  have hpres := native_deposit_skips c rentMin pid u ud v sp ubump vbump
    amt2 st1 st2 hsig hsp hfu hfv ho1 hrun2 ud.key
  refine ⟨ho1, hd1, hpres.1, by rw [hpres.2, ho1], ?_, ?_⟩
  · rw [hpres.1, hd1]
    exact decode_encode _ hu
  · intro ua hua
    unfold anchor_deposit_record
    rw [hua]
    simp

/-- First worked deposit run from the fresh ledger. -/
def wDep1 : Except ProgErr Ledger :=
  native_process_deposit cAll wRent wPid wAccts 5 wSt0

/-- Ledger after the first worked deposit. -/
def wSt1 : Ledger := okOr wDep1 wSt0

/-- Second worked deposit run. -/
def wDep2 : Except ProgErr Ledger :=
  native_process_deposit cAll wRent wPid wAccts 7 wSt1

/-- Ledger after the second worked deposit. -/
def wSt2 : Ledger := okOr wDep2 wSt0

/-- Witness for C3 at the worked example: two concrete deposits. -/
theorem deposit_idempotent_init_witness :
    (wSt1 wUdKey).owner = wPid ∧
    (wSt1 wUdKey).data = encode ⟨wU, 255, 255, true⟩ ∧
    (wSt2 wUdKey).data = (wSt1 wUdKey).data ∧
    (wSt2 wUdKey).owner = wPid ∧
    decode (wSt2 wUdKey).data = .ok ⟨wU, 255, 255, true⟩ ∧
    anchor_deposit_record wU 255 255 ⟨wU, 9, 9, true⟩ = ⟨wU, 9, 9, true⟩ := by
  have h := deposit_idempotent_init cAll wRent wPid ⟨wU, true⟩ ⟨wUdKey, false⟩
    ⟨wVKey, false⟩ ⟨systemProgramId, false⟩ 255 255 5 7 wSt0 wSt1 wSt2
    (by decide) rfl rfl rfl rfl (by decide) (by rfl) (by rfl)
  exact ⟨h.1, h.2.1, h.2.2.1, h.2.2.2.1, h.2.2.2.2.1, h.2.2.2.2.2 ⟨wU, 9, 9, true⟩ rfl⟩

/-- Under the common checks, the native withdraw reduces to the ownership
check, the two stored-bump verifications and the transfer. -/
theorem native_withdraw_reduce (c : Combine) (pid : Pubkey)
    (u ud v sp : AccountInfo) (amt : Nat) (st : Ledger) (rec : UserAccount)
    (hsig : u.isSigner = true) (hsp : sp.key = systemProgramId)
    (hdec : decode (st ud.key).data = .ok rec) :
    native_process_withdraw c pid [u, ud, v, sp] amt st =
      (if rec.user ≠ u.key then .error .invalidAccountData
       else
        match verifyDerived c .invalidSeeds [u.key] rec.user_bump pid ud.key with
        | .error e => .error e
        | .ok _ =>
          match verifyDerived c .invalidSeeds [vaultSeed, u.key]
              rec.vault_bump pid v.key with
          | .error e => .error e
          | .ok _ => sysTransfer v.key u.key amt st) := by
  simp only [native_process_withdraw]
  rw [hsig, hsp, hdec]
  simp

/-- Under the common checks, the pinocchio withdraw reduces to the ownership
check, the single stored-bump vault verification and the transfer. -/
theorem pinocchio_withdraw_reduce (c : Combine) (pid : Pubkey)
    (u ud v sp : AccountInfo) (amt : Nat) (st : Ledger) (rec : UserAccount)
    (hsig : u.isSigner = true) (hsp : sp.key = systemProgramId)
    (hdec : decode (st ud.key).data = .ok rec) :
    pinocchio_process_withdraw c pid [u, ud, v, sp] amt st =
      (if rec.user ≠ u.key then .error .invalidAccountData
       else
        match verifyDerived c .invalidAccountData [vaultSeed, u.key]
            rec.vault_bump pid v.key with
        | .error e => .error e
        | .ok _ => sysTransfer v.key u.key amt st) := by
  simp only [pinocchio_process_withdraw]
  rw [hsig, hsp, hdec]
  simp

/-- Claim C4: a Withdraw whose acting identity differs from the owner stored
in the supplied metadata record is rejected by both withdraw handlers with
the ownership-mismatch error, before any signing capability or transfer is
built (the request aborts with no state produced, so balances are
unchanged). -/
theorem withdraw_nonowner_rejected (c : Combine) (pid : Pubkey)
    (u ud v sp : AccountInfo) (amt : Nat) (st : Ledger) (rec : UserAccount)
    (hsig : u.isSigner = true) (hsp : sp.key = systemProgramId)
    (hdec : decode (st ud.key).data = .ok rec) (hown : rec.user ≠ u.key) :
    native_process_withdraw c pid [u, ud, v, sp] amt st
      = .error .invalidAccountData ∧
    pinocchio_process_withdraw c pid [u, ud, v, sp] amt st
      = .error .invalidAccountData := by
  rw [native_withdraw_reduce c pid u ud v sp amt st rec hsig hsp hdec,
    pinocchio_withdraw_reduce c pid u ud v sp amt st rec hsig hsp hdec]
  rw [if_pos hown, if_pos hown]
  exact ⟨rfl, rfl⟩

/-- Another user's identity for the non-owner scenario. -/
def cxOtherUser : Pubkey := List.replicate 32 2

/-- Ledger holding a metadata record that belongs to the other user. -/
def cxNonOwnerSt : Ledger :=
  fun k => if k = wUdKey then ⟨1, wPid, encode ⟨cxOtherUser, 255, 255, true⟩⟩
           else ⟨0, [], []⟩

/-- Witness for C4: wU tries to withdraw against cxOtherUser's record. -/
theorem withdraw_nonowner_rejected_witness :
    native_process_withdraw cAll wPid wAccts 3 cxNonOwnerSt
      = .error .invalidAccountData ∧
    pinocchio_process_withdraw cAll wPid wAccts 3 cxNonOwnerSt
      = .error .invalidAccountData :=
  withdraw_nonowner_rejected cAll wPid ⟨wU, true⟩ ⟨wUdKey, false⟩
    ⟨wVKey, false⟩ ⟨systemProgramId, false⟩ 3 cxNonOwnerSt
    ⟨cxOtherUser, 255, 255, true⟩ rfl rfl (by rfl) (by decide)

/-- Claim C5: verifying a derived address from stored data (as inlined in
both withdraw handlers) is one direct create_program_address recomputation,
no search: it succeeds exactly when the single combination of the seeds,
the stored bump and the program identity equals the claimed address; on
combine failure it fails with the designated error, and on inequality it
fails with the address-mismatch error, never falling back to the supplied
address. -/
theorem verify_direct_recompute (c : Combine) (eF : ProgErr)
    (seeds : List (List Nat)) (bump : Nat) (pid claimed : Pubkey) :
    (verifyDerived c eF seeds bump pid claimed = .ok () ↔
      create_program_address c (seeds ++ [[bump]]) pid = some claimed) ∧
    (create_program_address c (seeds ++ [[bump]]) pid = none →
      verifyDerived c eF seeds bump pid claimed = .error eF) ∧
    (∀ a, create_program_address c (seeds ++ [[bump]]) pid = some a →
      claimed ≠ a →
      verifyDerived c eF seeds bump pid claimed = .error .invalidAccountData) := by
  unfold verifyDerived
  cases hc : create_program_address c (seeds ++ [[bump]]) pid with
  | none => simp [hc]
  | some a =>
    refine ⟨?_, by simp [hc], ?_⟩
    · by_cases h : claimed = a
      · subst h
        simp
      · simp [h, hc]
        intro h2
        exact absurd h2.symm h
    · intro b hb hne
      injection hb with hab
      subst hab
      show (if claimed ≠ a then Except.error ProgErr.invalidAccountData
        else Except.ok ()) = Except.error ProgErr.invalidAccountData
      rw [if_pos hne]

/-- Witness for C5: the check passes exactly on the recomputed address and
rejects a wrong claimed address. -/
theorem verify_direct_recompute_witness :
    (verifyDerived cAll .invalidSeeds [wU] 3 wPid [seedsCode [wU, [3]] wPid]
        = .ok () ↔
      create_program_address cAll ([wU] ++ [[3]]) wPid
        = some [seedsCode [wU, [3]] wPid]) ∧
    verifyDerived cAll .invalidSeeds [wU] 3 wPid [0]
      = .error .invalidAccountData := by
  refine ⟨(verify_direct_recompute cAll .invalidSeeds [wU] 3 wPid
    [seedsCode [wU, [3]] wPid]).1, ?_⟩
  exact (verify_direct_recompute cAll .invalidSeeds [wU] 3 wPid [0]).2.2
    [seedsCode [wU, [3]] wPid] rfl (by decide)

/-- Claim C1 (amended): for a Withdraw that passes common validation and
whose record decodes with the acting identity as owner, the native
dispatcher recomputes the metadata address from the stored user_bump and
rejects on mismatch, then recomputes the custody address from the stored
vault_bump and rejects on mismatch, with no transfer attempted on either
failure; the pinocchio dispatcher performs only the custody-address
recomputation and rejection, omitting the metadata-address recheck. -/
theorem withdraw_pda_rechecks (c : Combine) (pid : Pubkey)
    (u ud v sp : AccountInfo) (amt : Nat) (st : Ledger) (rec : UserAccount)
    (hsig : u.isSigner = true) (hsp : sp.key = systemProgramId)
    (hdec : decode (st ud.key).data = .ok rec) (hown : rec.user = u.key) :
    (∀ a, create_program_address c [u.key, [rec.user_bump]] pid = some a →
      ud.key ≠ a →
      native_process_withdraw c pid [u, ud, v, sp] amt st
        = .error .invalidAccountData) ∧
    (∀ b, create_program_address c [u.key, [rec.user_bump]] pid = some ud.key →
      create_program_address c [vaultSeed, u.key, [rec.vault_bump]] pid = some b →
      v.key ≠ b →
      native_process_withdraw c pid [u, ud, v, sp] amt st
        = .error .invalidAccountData) ∧
    (∀ b, create_program_address c [vaultSeed, u.key, [rec.vault_bump]] pid
        = some b →
      v.key ≠ b →
      pinocchio_process_withdraw c pid [u, ud, v, sp] amt st
        = .error .invalidAccountData) := by
  refine ⟨?_, ?_, ?_⟩
  · intro a ha hne
    rw [native_withdraw_reduce c pid u ud v sp amt st rec hsig hsp hdec]
    rw [if_neg (by simp [hown])]
    unfold verifyDerived
    simp only [List.cons_append, List.nil_append]
    rw [ha]
    simp [hne]
  · intro b ha hb hne
    rw [native_withdraw_reduce c pid u ud v sp amt st rec hsig hsp hdec]
    rw [if_neg (by simp [hown])]
    unfold verifyDerived
    simp only [List.cons_append, List.nil_append]
    rw [ha, hb]
    simp [hne]
  · intro b hb hne
    rw [pinocchio_withdraw_reduce c pid u ud v sp amt st rec hsig hsp hdec]
    rw [if_neg (by simp [hown])]
    unfold verifyDerived
    simp only [List.cons_append, List.nil_append]
    rw [hb]
    simp [hne]

/-- Ledger whose record for wU sits at the wrong address [9]. -/
def cx1WrongUdSt : Ledger :=
  fun k => if k = [9] then ⟨1, wPid, encode ⟨wU, 255, 255, true⟩⟩ else ⟨0, [], []⟩

/-- Ledger whose record for wU sits at the correct metadata address. -/
def cx1GoodUdSt : Ledger :=
  fun k => if k = wUdKey then ⟨1, wPid, encode ⟨wU, 255, 255, true⟩⟩
           else ⟨0, [], []⟩

/-- Witness for C1: a wrong metadata address is rejected by the native
handler, and a wrong custody address by both handlers. -/
theorem withdraw_pda_rechecks_witness :
    native_process_withdraw cAll wPid
      [⟨wU, true⟩, ⟨[9], false⟩, ⟨wVKey, false⟩, ⟨systemProgramId, false⟩]
      1 cx1WrongUdSt = .error .invalidAccountData ∧
    native_process_withdraw cAll wPid
      [⟨wU, true⟩, ⟨wUdKey, false⟩, ⟨[8], false⟩, ⟨systemProgramId, false⟩]
      1 cx1GoodUdSt = .error .invalidAccountData ∧
    pinocchio_process_withdraw cAll wPid
      [⟨wU, true⟩, ⟨wUdKey, false⟩, ⟨[8], false⟩, ⟨systemProgramId, false⟩]
      1 cx1GoodUdSt = .error .invalidAccountData := by
  refine ⟨?_, ?_, ?_⟩
  · exact (withdraw_pda_rechecks cAll wPid ⟨wU, true⟩ ⟨[9], false⟩
      ⟨wVKey, false⟩ ⟨systemProgramId, false⟩ 1 cx1WrongUdSt
      ⟨wU, 255, 255, true⟩ rfl rfl (by rfl) rfl).1 wUdKey rfl (by decide)
  · exact (withdraw_pda_rechecks cAll wPid ⟨wU, true⟩ ⟨wUdKey, false⟩
      ⟨[8], false⟩ ⟨systemProgramId, false⟩ 1 cx1GoodUdSt
      ⟨wU, 255, 255, true⟩ rfl rfl (by rfl) rfl).2.1 wVKey rfl rfl (by decide)
  · exact (withdraw_pda_rechecks cAll wPid ⟨wU, true⟩ ⟨wUdKey, false⟩
      ⟨[8], false⟩ ⟨systemProgramId, false⟩ 1 cx1GoodUdSt
      ⟨wU, 255, 255, true⟩ rfl rfl (by rfl) rfl).2.2 wVKey rfl (by decide)

/-- Ledger for the C1 counterexample: a well-formed record for wU whose
stored user_bump (77) does not reproduce the supplied metadata address [3]. -/
def cx1AttSt : Ledger :=
  fun k => if k = [3] then ⟨1, wPid, encode ⟨wU, 77, 255, true⟩⟩ else ⟨0, [], []⟩

/-- Counterexample to C1 as stated: the pinocchio withdraw succeeds (the
transfer is reached) although the metadata address recomputed from the
stored user_bump differs from the supplied metadata address, so the
claimed AddressMismatch rejection does not happen in that variant. -/
theorem withdraw_pda_rechecks_cx :
    exceptIsOk (pinocchio_process_withdraw cAll wPid
      [⟨wU, true⟩, ⟨[3], false⟩, ⟨wVKey, false⟩, ⟨systemProgramId, false⟩]
      0 cx1AttSt) = true ∧
    create_program_address cAll [wU, [77]] wPid ≠ some [3] := by
  exact ⟨by rfl, by decide⟩

/-- Claim C2 (amended): for every Deposit and Withdraw, a missing signature
is rejected first and a wrong system-program account second, in both the
native and pinocchio variants, before any account creation or transfer;
for Deposit the supplied custody address is then checked against the fresh
bump-searched derivation for seeds [vault, acting identity]; for Withdraw
the custody address is instead checked, before the transfer, against the
recomputation from the record's stored vault_bump (and in the native
variant the metadata address against the stored user_bump). -/
theorem common_validation (c : Combine) (rentMin : Nat → Nat) (pid : Pubkey)
    (u ud v sp : AccountInfo) (amt : Nat) (st : Ledger) :
    (u.isSigner = false →
      native_process_deposit c rentMin pid [u, ud, v, sp] amt st
        = .error .missingRequiredSignature ∧
      pinocchio_process_deposit c rentMin pid [u, ud, v, sp] amt st
        = .error .missingRequiredSignature ∧
      native_process_withdraw c pid [u, ud, v, sp] amt st
        = .error .missingRequiredSignature ∧
      pinocchio_process_withdraw c pid [u, ud, v, sp] amt st
        = .error .missingRequiredSignature) ∧
    (u.isSigner = true → sp.key ≠ systemProgramId →
      native_process_deposit c rentMin pid [u, ud, v, sp] amt st
        = .error .invalidAccountData ∧
      pinocchio_process_deposit c rentMin pid [u, ud, v, sp] amt st
        = .error .invalidAccountData ∧
      native_process_withdraw c pid [u, ud, v, sp] amt st
        = .error .invalidAccountData ∧
      pinocchio_process_withdraw c pid [u, ud, v, sp] amt st
        = .error .invalidAccountData) ∧
    (∀ ub ev vb, u.isSigner = true → sp.key = systemProgramId →
      find_program_address c [u.key] pid = some (ud.key, ub) →
      find_program_address c [vaultSeed, u.key] pid = some (ev, vb) →
      v.key ≠ ev →
      native_process_deposit c rentMin pid [u, ud, v, sp] amt st
        = .error .invalidAccountData) ∧
    (∀ ev vb, u.isSigner = true → sp.key = systemProgramId →
      find_program_address c [vaultSeed, u.key] pid = some (ev, vb) →
      v.key ≠ ev →
      pinocchio_process_deposit c rentMin pid [u, ud, v, sp] amt st
        = .error .invalidAccountData) ∧
    (∀ rec b, u.isSigner = true → sp.key = systemProgramId →
      decode (st ud.key).data = .ok rec → rec.user = u.key →
      create_program_address c [u.key, [rec.user_bump]] pid = some ud.key →
      create_program_address c [vaultSeed, u.key, [rec.vault_bump]] pid = some b →
      v.key ≠ b →
      native_process_withdraw c pid [u, ud, v, sp] amt st
        = .error .invalidAccountData) ∧
    (∀ rec b, u.isSigner = true → sp.key = systemProgramId →
      decode (st ud.key).data = .ok rec → rec.user = u.key →
      create_program_address c [vaultSeed, u.key, [rec.vault_bump]] pid = some b →
      v.key ≠ b →
      pinocchio_process_withdraw c pid [u, ud, v, sp] amt st
        = .error .invalidAccountData) := by
  refine ⟨?_, ?_, ?_, ?_, ?_, ?_⟩
  · intro hs
    refine ⟨?_, ?_, ?_, ?_⟩ <;>
      · simp only [native_process_deposit, pinocchio_process_deposit,
          native_process_withdraw, pinocchio_process_withdraw]
        rw [hs]
        simp
  · intro hs hsp
    refine ⟨?_, ?_, ?_, ?_⟩ <;>
      · simp only [native_process_deposit, pinocchio_process_deposit,
          native_process_withdraw, pinocchio_process_withdraw]
        rw [hs]
        simp only [Bool.not_true, Bool.false_eq_true, if_false]
        rw [if_pos hsp]
  · intro ub ev vb hs hsp hfu hfv hne
    simp only [native_process_deposit]
    rw [hs, hsp]
    simp only [Bool.not_true, Bool.false_eq_true, if_false, ne_eq,
      not_true_eq_false, if_true, ite_self]
    rw [hfu]
    simp only [ne_eq, not_true_eq_false, if_false]
    rw [hfv]
    simp [hne]
  · intro ev vb hs hsp hfv hne
    simp only [pinocchio_process_deposit]
    rw [hs, hsp]
    simp only [Bool.not_true, Bool.false_eq_true, if_false, ne_eq,
      not_true_eq_false, if_true, ite_self]
    rw [hfv]
    simp [hne]
  · intro rec b hs hsp hdec hown ha hb hne
    rw [native_withdraw_reduce c pid u ud v sp amt st rec hs hsp hdec]
    rw [if_neg (by simp [hown])]
    unfold verifyDerived
    simp only [List.cons_append, List.nil_append]
    rw [ha, hb]
    simp [hne]
  · intro rec b hs hsp hdec hown hb hne
    rw [pinocchio_withdraw_reduce c pid u ud v sp amt st rec hs hsp hdec]
    rw [if_neg (by simp [hown])]
    unfold verifyDerived
    simp only [List.cons_append, List.nil_append]
    rw [hb]
    simp [hne]

/-- Ledger for the C2 counterexample: wU's record stores the non-canonical
vault bump 254. -/
def cx2St : Ledger :=
  fun k => if k = wUdKey then ⟨1, wPid, encode ⟨wU, 255, 254, true⟩⟩
           else ⟨0, [], []⟩

/-- The custody address the bump-254 record reproduces. -/
def cx2VKey : Pubkey := [seedsCode [vaultSeed, wU, [254]] wPid]

/-- Counterexample to C2 as stated: a native Withdraw succeeds although the
supplied custody address differs from the address derived (by bump search)
from seeds [vault, acting identity]; the withdraw path compares against the
stored-bump recomputation instead. -/
theorem common_validation_cx :
    exceptIsOk (native_process_withdraw cAll wPid
      [⟨wU, true⟩, ⟨wUdKey, false⟩, ⟨cx2VKey, false⟩, ⟨systemProgramId, false⟩]
      0 cx2St) = true ∧
    find_program_address cAll [vaultSeed, wU] wPid = some (wVKey, 255) ∧
    cx2VKey ≠ wVKey :=
  ⟨by rfl, by rfl, by decide⟩

/-- Witness for C2 (amended): each rejection leg at a concrete input. -/
theorem common_validation_witness :
    native_process_deposit cAll wRent wPid
      [⟨wU, false⟩, ⟨wUdKey, false⟩, ⟨wVKey, false⟩, ⟨systemProgramId, false⟩]
      1 wSt0 = .error .missingRequiredSignature ∧
    pinocchio_process_deposit cAll wRent wPid
      [⟨wU, false⟩, ⟨wUdKey, false⟩, ⟨wVKey, false⟩, ⟨systemProgramId, false⟩]
      1 wSt0 = .error .missingRequiredSignature ∧
    native_process_withdraw cAll wPid
      [⟨wU, false⟩, ⟨wUdKey, false⟩, ⟨wVKey, false⟩, ⟨systemProgramId, false⟩]
      1 wSt0 = .error .missingRequiredSignature ∧
    pinocchio_process_withdraw cAll wPid
      [⟨wU, false⟩, ⟨wUdKey, false⟩, ⟨wVKey, false⟩, ⟨systemProgramId, false⟩]
      1 wSt0 = .error .missingRequiredSignature ∧
    native_process_deposit cAll wRent wPid
      [⟨wU, true⟩, ⟨wUdKey, false⟩, ⟨wVKey, false⟩, ⟨[5], false⟩]
      1 wSt0 = .error .invalidAccountData ∧
    pinocchio_process_deposit cAll wRent wPid
      [⟨wU, true⟩, ⟨wUdKey, false⟩, ⟨wVKey, false⟩, ⟨[5], false⟩]
      1 wSt0 = .error .invalidAccountData ∧
    native_process_withdraw cAll wPid
      [⟨wU, true⟩, ⟨wUdKey, false⟩, ⟨wVKey, false⟩, ⟨[5], false⟩]
      1 wSt0 = .error .invalidAccountData ∧
    pinocchio_process_withdraw cAll wPid
      [⟨wU, true⟩, ⟨wUdKey, false⟩, ⟨wVKey, false⟩, ⟨[5], false⟩]
      1 wSt0 = .error .invalidAccountData ∧
    native_process_deposit cAll wRent wPid
      [⟨wU, true⟩, ⟨wUdKey, false⟩, ⟨[8], false⟩, ⟨systemProgramId, false⟩]
      1 wSt0 = .error .invalidAccountData ∧
    pinocchio_process_deposit cAll wRent wPid
      [⟨wU, true⟩, ⟨wUdKey, false⟩, ⟨[8], false⟩, ⟨systemProgramId, false⟩]
      1 wSt0 = .error .invalidAccountData ∧
    native_process_withdraw cAll wPid
      [⟨wU, true⟩, ⟨wUdKey, false⟩, ⟨[8], false⟩, ⟨systemProgramId, false⟩]
      1 cx1GoodUdSt = .error .invalidAccountData ∧
    pinocchio_process_withdraw cAll wPid
      [⟨wU, true⟩, ⟨wUdKey, false⟩, ⟨[8], false⟩, ⟨systemProgramId, false⟩]
      1 cx1GoodUdSt = .error .invalidAccountData := by
  have h1 := (common_validation cAll wRent wPid ⟨wU, false⟩ ⟨wUdKey, false⟩
    ⟨wVKey, false⟩ ⟨systemProgramId, false⟩ 1 wSt0).1 rfl
  have h2 := (common_validation cAll wRent wPid ⟨wU, true⟩ ⟨wUdKey, false⟩
    ⟨wVKey, false⟩ ⟨[5], false⟩ 1 wSt0).2.1 rfl (by decide)
  have hd := common_validation cAll wRent wPid ⟨wU, true⟩ ⟨wUdKey, false⟩
    ⟨[8], false⟩ ⟨systemProgramId, false⟩ 1 wSt0
  have hw := common_validation cAll wRent wPid ⟨wU, true⟩ ⟨wUdKey, false⟩
    ⟨[8], false⟩ ⟨systemProgramId, false⟩ 1 cx1GoodUdSt
  refine ⟨h1.1, h1.2.1, h1.2.2.1, h1.2.2.2, h2.1, h2.2.1, h2.2.2.1, h2.2.2.2,
    ?_, ?_, ?_, ?_⟩
  · exact hd.2.2.1 255 wVKey 255 rfl rfl rfl rfl (by decide)
  · exact hd.2.2.2.1 wVKey 255 rfl rfl rfl (by decide)
  · exact hw.2.2.2.2.1 ⟨wU, 255, 255, true⟩ wVKey rfl rfl (by rfl) rfl rfl rfl
      (by decide)
  · exact hw.2.2.2.2.2 ⟨wU, 255, 255, true⟩ wVKey rfl rfl (by rfl) rfl rfl
      (by decide)

/-- Claim C6: a Withdraw whose amount exceeds the custody balance fails with
the insufficient-funds error — raised by the ledger transfer in the native
and pinocchio variants and checked explicitly before the transfer in the
anchor variant — with no state produced, so the custody balance is
unchanged; and when funds suffice the anchor withdraw moves exactly the
requested amount (no clamping). -/
theorem insufficient_funds_propagated (c : Combine) (pid : Pubkey)
    (u ud v sp : AccountInfo) (amt : Nat) (st : Ledger) (rec : UserAccount)
    (uk vk : Pubkey) (amt2 : Nat) (st2 : Ledger)
    (hsig : u.isSigner = true) (hsp : sp.key = systemProgramId)
    (hdec : decode (st ud.key).data = .ok rec) (hown : rec.user = u.key)
    (hua : create_program_address c [u.key, [rec.user_bump]] pid = some ud.key)
    (hv : create_program_address c [vaultSeed, u.key, [rec.vault_bump]] pid
      = some v.key) :
    ((st v.key).lamports < amt →
      native_process_withdraw c pid [u, ud, v, sp] amt st
        = .error .insufficientFunds ∧
      pinocchio_process_withdraw c pid [u, ud, v, sp] amt st
        = .error .insufficientFunds) ∧
    ((st2 vk).lamports < amt2 →
      anchor_withdraw uk vk amt2 st2 = .error .insufficientFunds) ∧
    (amt2 ≤ (st2 vk).lamports → uk ≠ vk →
      exceptIsOk (anchor_withdraw uk vk amt2 st2) = true ∧
      ((okOr (anchor_withdraw uk vk amt2 st2) st2) vk).lamports
        = (st2 vk).lamports - amt2) := by
  refine ⟨?_, ?_, ?_⟩
  · intro hlow
    constructor
    · rw [native_withdraw_reduce c pid u ud v sp amt st rec hsig hsp hdec]
      rw [if_neg (by simp [hown])]
      unfold verifyDerived
      simp only [List.cons_append, List.nil_append]
      rw [hua, hv]
      simp only [ne_eq, not_true_eq_false, if_false, ite_self]
      show sysTransfer v.key u.key amt st = .error .insufficientFunds
      unfold sysTransfer
      rw [if_pos hlow]
    · rw [pinocchio_withdraw_reduce c pid u ud v sp amt st rec hsig hsp hdec]
      rw [if_neg (by simp [hown])]
      unfold verifyDerived
      simp only [List.cons_append, List.nil_append]
      rw [hv]
      simp only [ne_eq, not_true_eq_false, if_false, ite_self]
      show sysTransfer v.key u.key amt st = .error .insufficientFunds
      unfold sysTransfer
      rw [if_pos hlow]
  · intro hlow
    unfold anchor_withdraw
    rw [if_pos hlow]
  · intro hge hne
    unfold anchor_withdraw
    rw [if_neg (Nat.not_lt.mpr hge)]
    unfold sysTransfer
    rw [if_neg (Nat.not_lt.mpr hge)]
    refine ⟨rfl, ?_⟩
    simp [okOr, setAccount, Account.withLamports, Ne.symm hne]

/-- Ledger for the anchor insufficient-funds example: vault [2] holds 5. -/
def cx6St : Ledger :=
  fun k => if k = [2] then ⟨5, [], []⟩ else ⟨0, [], []⟩

/-- Witness for C6: overdrawing withdrawals fail in all three variants and a
covered anchor withdraw moves the exact amount. -/
theorem insufficient_funds_propagated_witness :
    native_process_withdraw cAll wPid wAccts 1 cx1GoodUdSt
      = .error .insufficientFunds ∧
    pinocchio_process_withdraw cAll wPid wAccts 1 cx1GoodUdSt
      = .error .insufficientFunds ∧
    anchor_withdraw [1] [2] 9 cx6St = .error .insufficientFunds ∧
    (exceptIsOk (anchor_withdraw [1] [2] 3 cx6St) = true ∧
      ((okOr (anchor_withdraw [1] [2] 3 cx6St) cx6St) [2]).lamports
        = (cx6St [2]).lamports - 3) := by
  have h := insufficient_funds_propagated cAll wPid ⟨wU, true⟩ ⟨wUdKey, false⟩
    ⟨wVKey, false⟩ ⟨systemProgramId, false⟩ 1 cx1GoodUdSt ⟨wU, 255, 255, true⟩
    [1] [2] 9 cx6St rfl rfl (by rfl) rfl rfl rfl
  have h2 := insufficient_funds_propagated cAll wPid ⟨wU, true⟩ ⟨wUdKey, false⟩
    ⟨wVKey, false⟩ ⟨systemProgramId, false⟩ 1 cx1GoodUdSt ⟨wU, 255, 255, true⟩
    [1] [2] 3 cx6St rfl rfl (by rfl) rfl rfl rfl
  exact ⟨(h.1 (by decide)).1, (h.1 (by decide)).2, h.2.1 (by decide),
    h2.2.2 (by decide) (by decide)⟩

/-- Claim C7: instruction decoding maps tag byte 0 with an 8-byte body to
Deposit and tag byte 1 to Withdraw, reading the amount as an 8-byte
little-endian unsigned integer from bytes 1..9; any other length or tag is
rejected with the invalid-instruction error, in which case the dispatcher
runs no deposit or withdraw logic. -/
theorem unpack_spec :
    (∀ bs : List Nat, bs.length = 8 →
      unpack (0 :: bs) = .ok (.Deposit (u64FromLEBytes bs))) ∧
    (∀ bs : List Nat, bs.length = 8 →
      unpack (1 :: bs) = .ok (.Withdraw (u64FromLEBytes bs))) ∧
    (∀ input : List Nat, input.length ≠ 9 →
      unpack input = .error .invalidInstructionData) ∧
    (∀ tag : Nat, ∀ bs : List Nat, bs.length = 8 → 2 ≤ tag →
      unpack (tag :: bs) = .error .invalidInstructionData) ∧
    (∀ (c : Combine) (rentMin : Nat → Nat) (pid : Pubkey)
      (accounts : List AccountInfo) (st : Ledger) (input : List Nat),
      unpack input = .error .invalidInstructionData →
      native_process_instruction c rentMin pid accounts input st
        = .error .invalidInstructionData) := by
  refine ⟨?_, ?_, ?_, ?_, ?_⟩
  · intro bs hbs
    simp [unpack, hbs]
  · intro bs hbs
    simp [unpack, hbs]
  · intro input hlen
    match input with
    | [] => rfl
    | tag :: rest =>
      have : rest.length ≠ 8 := by
        simp at hlen
        omega
      simp [unpack, this]
  · intro tag bs hbs htag
    have h0 : tag ≠ 0 := by omega
    have h1 : tag ≠ 1 := by omega
    simp [unpack, hbs, h0, h1]
  · intro c rentMin pid accounts st input hu
    simp [native_process_instruction, hu]

theorem unpack_spec_witness :
    unpack [0, 1, 0, 0, 0, 0, 0, 0, 0] = .ok (.Deposit (u64FromLEBytes [1, 0, 0, 0, 0, 0, 0, 0])) ∧
    unpack [1, 2, 1, 0, 0, 0, 0, 0, 0] = .ok (.Withdraw (u64FromLEBytes [2, 1, 0, 0, 0, 0, 0, 0])) ∧
    unpack [0, 1] = .error .invalidInstructionData ∧
    unpack [7, 1, 0, 0, 0, 0, 0, 0, 0] = .error .invalidInstructionData ∧
    native_process_instruction cAll wRent wPid wAccts [0, 1] wSt0
      = .error .invalidInstructionData :=
  ⟨unpack_spec.1 [1, 0, 0, 0, 0, 0, 0, 0] rfl,
   unpack_spec.2.1 [2, 1, 0, 0, 0, 0, 0, 0] rfl,
   unpack_spec.2.2.1 [0, 1] (by decide),
   unpack_spec.2.2.2.1 7 [1, 0, 0, 0, 0, 0, 0, 0] rfl (by decide),
   unpack_spec.2.2.2.2 cAll wRent wPid wAccts wSt0 [0, 1]
     (unpack_spec.2.2.1 [0, 1] (by decide))⟩

/-- A successful pinocchio deposit that found the metadata account not yet
program-owned creates it under the program and writes the freshly
initialized record with the searched bumps. -/
theorem pinocchio_deposit_creates (c : Combine) (rentMin : Nat → Nat)
    (pid : Pubkey) (u ud v sp : AccountInfo) (ubump vbump amount : Nat)
    (st st' : Ledger)
    (hsig : u.isSigner = true) (hsp : sp.key = systemProgramId)
    (hfv : find_program_address c [vaultSeed, u.key] pid = some (v.key, vbump))
    (hfu : find_program_address c [u.key] pid = some (ud.key, ubump))
    (h0 : (st ud.key).owner ≠ pid)
    (hrun : pinocchio_process_deposit c rentMin pid [u, ud, v, sp] amount st
      = .ok st') :
    (st' ud.key).owner = pid ∧
    (st' ud.key).data = encode ⟨u.key, ubump, vbump, true⟩ := by
  simp only [pinocchio_process_deposit] at hrun
  rw [hsig, hsp] at hrun
  simp only [Bool.not_true, if_false, Bool.false_eq_true, ne_eq, not_true_eq_false,
    if_true, ite_self] at hrun
  rw [hfv] at hrun
  simp only [ne_eq, not_true_eq_false, if_false] at hrun
  rw [if_pos h0, hfu] at hrun
  simp only [ne_eq, not_true_eq_false, if_false] at hrun
  cases hc : createAccount u.key ud.key (rentMin UserAccount.SIZE)
      UserAccount.SIZE pid st with
  | error e =>
    rw [hc] at hrun
    simp [Except.map, Except.bind] at hrun
  | ok stc =>
    rw [hc] at hrun
    simp only [Except.map, Except.bind] at hrun
    obtain ⟨hd, ho⟩ := sysTransfer_preserves _ _ _ _ _ hrun ud.key
    rw [writeDataAt_self] at hd ho
    refine ⟨?_, ?_⟩
    · rw [ho, createAccount_target _ _ _ _ _ _ _ hc]
    · rw [hd]

/-- Claim C9 (amended): the encoded metadata record is a fixed-width buffer
of exactly identity width + 1 + 1 + 1 = 35 bytes; the native and the
pinocchio deposit each size the metadata account created on first deposit
to exactly that width, while the anchor variant sizes it to 8 bytes more
(the anchor account discriminator prefix). -/
theorem record_fixed_width (r : UserAccount) (c : Combine) (rentMin : Nat → Nat)
    (pid : Pubkey) (u ud v sp : AccountInfo) (ubump vbump amt amtp : Nat)
    (st0 st1 stp0 stp1 : Ledger)
    (hr : r.user.length = 32) (hu : u.key.length = 32)
    (hsig : u.isSigner = true) (hsp : sp.key = systemProgramId)
    (hfu : find_program_address c [u.key] pid = some (ud.key, ubump))
    (hfv : find_program_address c [vaultSeed, u.key] pid = some (v.key, vbump))
    (h0 : (st0 ud.key).owner ≠ pid)
    (hrun1 : native_process_deposit c rentMin pid [u, ud, v, sp] amt st0
      = .ok st1)
    (hp0 : (stp0 ud.key).owner ≠ pid)
    (hrunp : pinocchio_process_deposit c rentMin pid [u, ud, v, sp] amtp stp0
      = .ok stp1) :
    (encode r).length = UserAccount.SIZE ∧
    UserAccount.SIZE = 35 ∧
    (st1 ud.key).data.length = UserAccount.SIZE ∧
    (stp1 ud.key).data.length = UserAccount.SIZE ∧
    anchorDepositSpace = 8 + UserAccount.SIZE := by
  have hc := native_deposit_creates c rentMin pid u ud v sp ubump vbump amt
    st0 st1 hsig hsp hfu hfv h0 hrun1
  have hp := pinocchio_deposit_creates c rentMin pid u ud v sp ubump vbump amtp
    stp0 stp1 hsig hsp hfv hfu hp0 hrunp
  refine ⟨encode_length r hr, rfl, ?_, ?_, rfl⟩
  · rw [hc.2]
    exact encode_length _ hu
  · rw [hp.2]
    exact encode_length _ hu


/-- Counterexample to C9 as stated: the anchor Deposit accounts struct
allocates 8 + INIT_SPACE bytes, not the record width. -/
theorem record_fixed_width_cx : anchorDepositSpace ≠ UserAccount.SIZE := by
  decide


/-- Worked pinocchio deposit run from the fresh ledger. -/
def wPinDep : Except ProgErr Ledger :=
  pinocchio_process_deposit cAll wRent wPid wAccts 5 wSt0

/-- Ledger after the worked pinocchio deposit. -/
def wPinSt1 : Ledger := okOr wPinDep wSt0

/-- Witness for C9 at the worked native and pinocchio deposits. -/
theorem record_fixed_width_witness :
    (encode ⟨wU, 1, 2, false⟩).length = UserAccount.SIZE ∧
    UserAccount.SIZE = 35 ∧
    (wSt1 wUdKey).data.length = UserAccount.SIZE ∧
    (wPinSt1 wUdKey).data.length = UserAccount.SIZE ∧
    anchorDepositSpace = 8 + UserAccount.SIZE :=
  record_fixed_width ⟨wU, 1, 2, false⟩ cAll wRent wPid ⟨wU, true⟩
    ⟨wUdKey, false⟩ ⟨wVKey, false⟩ ⟨systemProgramId, false⟩ 255 255 5 5
    wSt0 wSt1 wSt0 wPinSt1
    (by decide) (by decide) rfl rfl rfl rfl (by decide) (by rfl)
    (by decide) (by rfl)


/-- Claim C10: any deposit or withdraw invocation whose account list does
not have exactly four entries — fewer or more — is rejected up front with
the not-enough-account-keys error by all four handlers. -/
theorem four_accounts_required (c : Combine) (rentMin : Nat → Nat) (pid : Pubkey)
    (accounts : List AccountInfo) (amt : Nat) (st : Ledger)
    (h : accounts.length ≠ 4) :
    native_process_deposit c rentMin pid accounts amt st
      = .error .notEnoughAccountKeys ∧
    native_process_withdraw c pid accounts amt st
      = .error .notEnoughAccountKeys ∧
    pinocchio_process_deposit c rentMin pid accounts amt st
      = .error .notEnoughAccountKeys ∧
    pinocchio_process_withdraw c pid accounts amt st
      = .error .notEnoughAccountKeys := by
  rcases accounts with _ | ⟨a1, _ | ⟨a2, _ | ⟨a3, _ | ⟨a4, _ | ⟨a5, rest⟩⟩⟩⟩⟩
  · exact ⟨rfl, rfl, rfl, rfl⟩
  · exact ⟨rfl, rfl, rfl, rfl⟩
  · exact ⟨rfl, rfl, rfl, rfl⟩
  · exact ⟨rfl, rfl, rfl, rfl⟩
  · simp at h
  · exact ⟨rfl, rfl, rfl, rfl⟩


/-- Five supplied accounts for the C10 witness. -/
def w5Accts : List AccountInfo :=
  [⟨wU, true⟩, ⟨wUdKey, false⟩, ⟨wVKey, false⟩, ⟨systemProgramId, false⟩,
   ⟨[9], false⟩]


/-- Witness for C10: an empty list and a five-account list are both
rejected. -/
theorem four_accounts_required_witness :
    (native_process_deposit cAll wRent wPid [] 1 wSt0
        = .error .notEnoughAccountKeys ∧
      native_process_withdraw cAll wPid [] 1 wSt0
        = .error .notEnoughAccountKeys ∧
      pinocchio_process_deposit cAll wRent wPid [] 1 wSt0
        = .error .notEnoughAccountKeys ∧
      pinocchio_process_withdraw cAll wPid [] 1 wSt0
        = .error .notEnoughAccountKeys) ∧
    (native_process_deposit cAll wRent wPid w5Accts 1 wSt0
        = .error .notEnoughAccountKeys ∧
      native_process_withdraw cAll wPid w5Accts 1 wSt0
        = .error .notEnoughAccountKeys ∧
      pinocchio_process_deposit cAll wRent wPid w5Accts 1 wSt0
        = .error .notEnoughAccountKeys ∧
      pinocchio_process_withdraw cAll wPid w5Accts 1 wSt0
        = .error .notEnoughAccountKeys) :=
  ⟨four_accounts_required cAll wRent wPid [] 1 wSt0 (by decide),
   four_accounts_required cAll wRent wPid w5Accts 1 wSt0 (by decide)⟩

/-- Claim C8: decoding the encoding of any valid record returns the identical
record, and decoding any byte buffer whose length differs from the fixed
record width fails with the malformed-data error. -/
theorem decode_encode_roundtrip (r : UserAccount) (hr : r.Valid) :
    decode (encode r) = .ok r ∧
    ∀ bs : List Nat, bs.length ≠ UserAccount.SIZE →
      decode bs = .error .invalidAccountData :=
  ⟨decode_encode r hr.1, fun bs hbs => decode_wrong_length bs hbs⟩

/-- Witness for C8: a concrete record round-trips and a 3-byte buffer is
rejected. -/
theorem decode_encode_roundtrip_witness :
    decode (encode ⟨wU, 255, 254, true⟩) = .ok ⟨wU, 255, 254, true⟩ ∧
    decode [1, 2, 3] = .error .invalidAccountData := by
  have h := decode_encode_roundtrip ⟨wU, 255, 254, true⟩ (by decide)
  exact ⟨h.1, h.2 [1, 2, 3] (by decide)⟩
